import Mathlib

/-
Shallow embedding of the amplifier repository's memory-extraction pipeline
(circuit breaker, hook router, two-pass sampling, transcript processor,
extraction worker, transcript registry) and of the DDD orchestrator tools
(chunk analyzer, budget tracker), with theorems checking the repository's
natural-language specification against the code.

Conventions of the embedding:
- Python unbounded ints become Int (or Nat where the source value is a count),
  Python floats produced by exact arithmetic on timestamps/divisions become ℚ.
- File-backed state is passed explicitly: a function that reads and rewrites a
  JSON state file becomes a function from the old state to the new state.
- Wall-clock reads (time.time(), datetime.now()) become explicit parameters.
- LLM calls and JSON parsing of external data are abstracted as function
  parameters returning Except (exception) or Option values.
- Logging and terminal-UI calls have no observable effect on the data model
  and are dropped.
-/

namespace Amplifier

/-- Python's int() conversion on an exact rational: truncation toward zero
(floor for nonnegative arguments, ceiling for negative ones). -/
def pyInt (q : ℚ) : ℤ := if 0 ≤ q then ⌊q⌋ else ⌈q⌉

namespace CircuitBreaker

/-- FREQUENCY_THRESHOLD from circuit_breaker.py: max hooks per minute. -/
def FREQUENCY_THRESHOLD : Nat := 5

/-- TIME_WINDOW from circuit_breaker.py, in seconds. -/
def TIME_WINDOW : ℚ := 60

/-- CircuitState dataclass from circuit_breaker.py. -/
structure CircuitState where
  allowed : Bool
  reason : String
  wait_seconds : Int
  recent_hook_count : Nat
deriving DecidableEq, Repr

/-- Python min() over a nonempty list (0 as an unreachable default for []). -/
def listMin : List ℚ → ℚ
  | [] => 0
  | x :: xs => xs.foldl min x

/-- check_circuit_breaker from circuit_breaker.py, as a pure function of the
persisted timestamps list and the current wall-clock time. Returns the
CircuitState and the timestamps persisted after the call (on rejection the
state file is not rewritten, so the old list persists). -/
def check_circuit_breaker (timestamps : List ℚ) (now : ℚ) : CircuitState × List ℚ :=
  let recent := timestamps.filter (fun ts => now - ts < TIME_WINDOW)
  if FREQUENCY_THRESHOLD ≤ recent.length then
    (⟨false, "Too many hooks (" ++ toString recent.length ++ " in 60s)",
      pyInt (TIME_WINDOW - (now - listMin recent)), recent.length⟩, timestamps)
  else
    (⟨true, "Within frequency threshold", 0, recent.length + 1⟩, recent ++ [now])

/-- Run a sequence of check_circuit_breaker calls at the given wall-clock
times, threading the persisted state; returns each call's time and result. -/
def cbRun : List ℚ → List ℚ → List (ℚ × CircuitState)
  | _, [] => []
  | st, t :: ts =>
    let r := check_circuit_breaker st t
    (t, r.1) :: cbRun r.2 ts

/-- Number of calls in the run output that were admitted (allowed = true)
and whose wall-clock time lies in the 60-second window [a, a + 60). -/
def acceptsIn (out : List (ℚ × CircuitState)) (a : ℚ) : Nat :=
  out.countP (fun p => decide (a ≤ p.1) && decide (p.1 < a + 60) && p.2.allowed)

/-- Number of persisted timestamps lying in the window [a, a + 60). -/
def winCount (a : ℚ) (s : List ℚ) : Nat :=
  (s.filter (fun x => decide (a ≤ x) && decide (x < a + 60))).length

end CircuitBreaker

namespace Router

/-- HookAction dataclass from router.py; action is one of the literals
"skip", "queue", "error". -/
structure HookAction where
  action : String
  reason : String
deriving DecidableEq, Repr

/-- route_hook_event from router.py, as a pure function of the event name,
the payload (unread by the code), the breaker's persisted timestamps and the
wall-clock time. Returns the action and the timestamps persisted after the
call (the breaker is only consulted past the SubagentStop rule). -/
def route_hook_event (event_name : String) (_payload : List (String × String))
    (timestamps : List ℚ) (now : ℚ) : HookAction × List ℚ :=
  if event_name = "SubagentStop" then
    (⟨"skip", "SubagentStop events are skipped (incomplete context)"⟩, timestamps)
  else
    let r := CircuitBreaker.check_circuit_breaker timestamps now
    if r.1.allowed = false then
      (⟨"skip", "Circuit breaker active: " ++ r.1.reason⟩, r.2)
    else if event_name = "Stop" then
      (⟨"queue", "Stop event queued for extraction"⟩, r.2)
    else
      (⟨"skip", "Unknown event type: " ++ event_name⟩, r.2)

end Router

namespace Sampling

/-- MAX_RANGES from intelligent_sampling.py (requested in the triage prompt). -/
def MAX_RANGES : Nat := 5

/-- TRIAGE_TIMEOUT from intelligent_sampling.py, seconds. -/
def TRIAGE_TIMEOUT : Nat := 30

/-- FALLBACK_COUNT from intelligent_sampling.py: messages to process when
triage fails. -/
def FALLBACK_COUNT : Int := 50

/-- MessageRange dataclass from intelligent_sampling.py. The indices come
from LLM JSON and are arbitrary integers; the Python field named end is
written «end» here. -/
structure MessageRange where
  start : Int
  «end» : Int
  reason : String
deriving DecidableEq, Repr

/-- Metadata dict attached by two_pass_extraction. Coverage is the exact
value of the Python float division. -/
structure TwoPassMeta where
  extraction_method : String
  total_messages : Nat
  processed_messages : Int
  coverage : ℚ
  ranges_identified : Nat
deriving DecidableEq, Repr

/-- Observable outcome of two_pass_extraction: the ranges handed to the
extraction pass and the metadata attached to the result. -/
structure TwoPassOutcome where
  ranges : List MessageRange
  metadata : TwoPassMeta
deriving DecidableEq, Repr

/-- One element of the JSON array returned by the triage LLM call: either a
dict (with optional start, end and reason keys) or any other JSON value. -/
inductive TriageItem
  | dict (startVal endVal : Option Int) (reasonVal : Option String)
  | other
deriving DecidableEq, Repr

/-- Range-parsing loop of _triage_pass from intelligent_sampling.py: every
list element that is a dict containing both a start and an end key becomes a
MessageRange, with reason defaulting to "unknown". -/
def parse_triage_ranges : List TriageItem → List MessageRange
  | [] => []
  | .dict (some s) (some e) r :: rest =>
    ⟨s, e, r.getD "unknown"⟩ :: parse_triage_ranges rest
  | _ :: rest => parse_triage_ranges rest

/-- Predicate: a triage response element that _triage_pass turns into a
range (a dict containing both start and end keys). -/
def wellFormedItem : TriageItem → Bool
  | .dict (some _) (some _) _ => true
  | _ => false

/-- Ranges actually used by two_pass_extraction: the triage pass's ranges
when it produced any (an exception yields none), else the single fallback
range over the final FALLBACK_COUNT messages. -/
def ranges_used (total : Nat) (triage : Except String (List MessageRange)) :
    List MessageRange :=
  let rs := match triage with
    | .ok l => l
    | .error _ => []
  if rs.isEmpty then [⟨max 0 ((total : Int) - FALLBACK_COUNT), (total : Int), "fallback"⟩]
  else rs

/-- two_pass_extraction from intelligent_sampling.py, with the triage LLM
call abstracted as an Except value (exception or parsed ranges) and the
extraction-pass LLM result abstracted away (the metadata update applied to a
successful extraction result is what is modelled). Raises on an empty
message list. -/
def two_pass_extraction {α : Type} (messages : List α)
    (triage : Except String (List MessageRange)) : Except String TwoPassOutcome :=
  let total := messages.length
  if messages.isEmpty then
    .error "No messages provided for two-pass extraction"
  else
    let ranges := ranges_used total triage
    let processed : Int := (ranges.map (fun r => r.«end» - r.start)).sum
    let coverage : ℚ := if 0 < total then (processed : ℚ) / (total : ℚ) else 0
    .ok ⟨ranges, ⟨"two_pass_intelligent", total, processed, coverage, ranges.length⟩⟩

end Sampling

/-- Characters stripped by Python str.strip(): ASCII whitespace. -/
def isPySpace (c : Char) : Bool :=
  c == ' ' || c == '\t' || c == '\n' || c == '\r' || c == Char.ofNat 11 || c == Char.ofNat 12

/-- Python str.strip(): drop leading and trailing whitespace. -/
def pyStrip (s : String) : String :=
  String.mk (((s.data.dropWhile isPySpace).reverse.dropWhile isPySpace).reverse)

namespace Processor

/-- ExtractionResult dataclass from processor.py. -/
structure ExtractionResult where
  session_id : String
  memories_extracted : Nat
  success : Bool
  error : Option String
deriving DecidableEq, Repr

/-- One memory item of the extraction result dict, as read by
process_transcript with .get defaults (keys may be absent). -/
structure MemData where
  content : Option String
  type : Option String
  importance : Option ℚ
  tags : Option (List String)
deriving DecidableEq, Repr

/-- Memory model from processor.py: the Memory record built from one
extraction item, with its metadata enriched by the session id. -/
structure Memory where
  content : String
  category : String
  session_id : String
  importance : ℚ
  tags : List String
deriving DecidableEq, Repr

/-- Conversion of one extraction item to a Memory record, with the .get
defaults of process_transcript (content "", type "learning",
importance 0.5, tags []). -/
def toMemory (session_id : String) (m : MemData) : Memory :=
  ⟨m.content.getD "", m.type.getD "learning", session_id,
    m.importance.getD (1 / 2), m.tags.getD []⟩

/-- _load_transcript from processor.py over the file's lines: strip each
line, skip empty ones, parse the rest as JSON (the JSON parser is abstracted
as a parameter); a malformed line fails the whole load. -/
def load_transcript {α : Type} (parseLine : String → Except String α) :
    List String → Except String (List α)
  | [] => .ok []
  | line :: rest =>
    let s := pyStrip line
    if s = "" then load_transcript parseLine rest
    else
      match parseLine s with
      | .error e => .error ("Invalid JSON: " ++ e)
      | .ok m => (load_transcript parseLine rest).map (fun ms => m :: ms)

/-- process_transcript from processor.py, over the transcript file's
existence flag and lines, with the JSON parser and the extractor (LLM and
memory-store pipeline) abstracted as parameters. A missing file raises
(Except.error, outside the internal try); errors inside the try are caught
and returned as success = false results. Returns the result and the list of
Memory records written to the store. -/
def process_transcript {α : Type} (fileExists : Bool) (session_id : String)
    (fileLines : List String) (parseLine : String → Except String α)
    (extract : List α → Except String (List MemData)) :
    Except String (ExtractionResult × List Memory) :=
  if fileExists = false then
    .error ("Transcript not found: " ++ session_id)
  else
    .ok <|
      match load_transcript parseLine fileLines with
      | .error e => (⟨session_id, 0, false, some e⟩, [])
      | .ok [] => (⟨session_id, 0, true, some "No messages in transcript"⟩, [])
      | .ok msgs =>
        match extract msgs with
        | .error e => (⟨session_id, 0, false, some e⟩, [])
        | .ok mems =>
          let stored := mems.map (toMemory session_id)
          (⟨session_id, stored.length, true, none⟩, stored)

end Processor

/-- First-match in-place update, as Python's for-loop with break over a list
of records: apply f to the first element satisfying p, leave the rest (and a
list with no match) unchanged. -/
def update_first {α : Type} (p : α → Bool) (f : α → α) : List α → List α
  | [] => []
  | x :: xs => if p x then f x :: xs else x :: update_first p f xs

namespace TranscriptTracker

/-- TranscriptRecord dataclass from transcript_tracker.py. -/
structure TranscriptRecord where
  session_id : String
  transcript_path : String
  created_at : String
  processed : Bool
  processed_at : Option String
  memories_extracted : Nat
deriving DecidableEq, Repr

/-- add_transcript_record from transcript_tracker.py, as a pure function of
the loaded registry (created_at is the wall-clock reading). Skips if the
session_id already exists, else appends a record with processed = false. -/
def add_transcript_record (registry : List TranscriptRecord)
    (session_id transcript_path created_at : String) : List TranscriptRecord :=
  if registry.any (fun t => t.session_id == session_id) then registry
  else registry ++ [⟨session_id, transcript_path, created_at, false, none, 0⟩]

/-- mark_transcript_processed from transcript_tracker.py: set processed,
processed_at and memories_extracted on the first record with the given
session_id; a registry with no match is left unchanged. -/
def mark_transcript_processed (registry : List TranscriptRecord)
    (session_id : String) (memories_count : Nat) (now : String) :
    List TranscriptRecord :=
  update_first (fun t => t.session_id == session_id)
    (fun t => { t with
        processed := true
        processed_at := some now
        memories_extracted := memories_count }) registry

/-- get_unprocessed_transcripts from transcript_tracker.py. -/
def get_unprocessed_transcripts (registry : List TranscriptRecord) :
    List TranscriptRecord :=
  registry.filter (fun t => !t.processed)

end TranscriptTracker

namespace Worker

open TranscriptTracker Processor

/-- TranscriptState dataclass from state_tracker.py. -/
structure TranscriptState where
  id : String
  status : String
  memories : Nat
  completed_at : Option String
deriving DecidableEq, Repr

/-- update_transcript_progress from state_tracker.py over the loaded state's
transcripts list: update the first entry with the given session id
(completed_at is stamped only when the new status is "completed"). -/
def update_transcript_progress (tstates : List TranscriptState)
    (session_id status : String) (memories : Nat) (now : String) :
    List TranscriptState :=
  update_first (fun t => t.id == session_id)
    (fun t => { t with
        status := status
        memories := memories
        completed_at := if status == "completed" then some now
                        else t.completed_at }) tstates

/-- Mutable state threaded through the worker loop of extraction_worker.py:
the transcript registry, the extraction state's per-transcript list, and the
three statistics counters. -/
structure WorkerSt where
  registry : List TranscriptRecord
  transcripts : List TranscriptState
  transcripts_processed : Nat
  total_memories : Nat
  errors : Nat
deriving DecidableEq, Repr

/-- Result of run_extraction_worker: the final registry, the extraction
state written on completion (none when there was no work and no state file
is written; otherwise the final overall status and per-transcript states),
and the returned statistics. -/
structure WorkerOut where
  registry : List TranscriptRecord
  state : Option (String × List TranscriptState)
  transcripts_processed : Nat
  total_memories : Nat
  errors : Nat
deriving DecidableEq, Repr

/-- Loop body of run_extraction_worker for one transcript record: mark it
in_progress, invoke the processor (abstracted as proc, whose Except.error
case is a raised exception and whose Except.ok case is a returned
ExtractionResult); an exception sets the per-transcript state to failed and
increments the error counter, a returned result is treated as a success:
the per-transcript state becomes completed with the result's memory count,
the registry record is marked processed, and the counters advance. -/
def worker_step (proc : TranscriptRecord → Except String ExtractionResult)
    (now : String) (st : WorkerSt) (t : TranscriptRecord) : WorkerSt :=
  let st1 := { st with
    transcripts := update_transcript_progress st.transcripts t.session_id "in_progress" 0 now }
  match proc t with
  | .error _ =>
    { st1 with
      errors := st1.errors + 1
      transcripts := update_transcript_progress st1.transcripts t.session_id "failed" 0 now }
  | .ok r =>
    let m := r.memories_extracted
    { st1 with
      transcripts := update_transcript_progress st1.transcripts t.session_id "completed" m now
      registry := mark_transcript_processed st1.registry t.session_id m now
      total_memories := st1.total_memories + m
      transcripts_processed := st1.transcripts_processed + 1 }

/-- Sequential for-loop of run_extraction_worker over the unprocessed
snapshot. -/
def worker_loop (proc : TranscriptRecord → Except String ExtractionResult)
    (now : String) : WorkerSt → List TranscriptRecord → WorkerSt
  | st, [] => st
  | st, t :: ts => worker_loop proc now (worker_step proc now st t) ts

/-- run_extraction_worker from extraction_worker.py, as a pure function of
the loaded registry, the processor, and the wall-clock reading. With no
unprocessed transcripts it returns zero statistics without writing state;
otherwise it writes an initial running state with all transcripts pending,
runs the loop, and writes the final status ("completed" when errors = 0,
else "completed_with_errors"). -/
def run_extraction_worker (registry : List TranscriptRecord)
    (proc : TranscriptRecord → Except String ExtractionResult) (now : String) :
    WorkerOut :=
  let unprocessed := get_unprocessed_transcripts registry
  if unprocessed.isEmpty then
    ⟨registry, none, 0, 0, 0⟩
  else
    let init : WorkerSt :=
      ⟨registry, unprocessed.map (fun t => ⟨t.session_id, "pending", 0, none⟩), 0, 0, 0⟩
    let fin := worker_loop proc now init unprocessed
    ⟨fin.registry,
      some (if fin.errors = 0 then "completed" else "completed_with_errors", fin.transcripts),
      fin.transcripts_processed, fin.total_memories, fin.errors⟩

/-- Whether the processor raises for a record (Except.error = raised). -/
def procFails (proc : TranscriptRecord → Except String ExtractionResult)
    (t : TranscriptRecord) : Bool :=
  match proc t with
  | .error _ => true
  | .ok _ => false

end Worker

namespace ChunkAnalyzer

/-- ChunkSpec dataclass from ddd_chunk_analyzer.py. -/
structure ChunkSpec where
  id : String
  title : String
  estimated_tokens : Int
  dependencies : List String
  files_to_create : List String
  complexity : String
deriving DecidableEq, Repr

/-- get_next_chunk from ddd_chunk_analyzer.py: skip chunks already
completed, return the first whose dependencies are all completed, else
none. -/
def get_next_chunk : List ChunkSpec → List String → Option ChunkSpec
  | [], _ => none
  | c :: rest, completed =>
    if c.id ∈ completed then get_next_chunk rest completed
    else if c.dependencies.all (fun d => decide (d ∈ completed)) then some c
    else get_next_chunk rest completed

/-- Eligibility predicate of the get_next_chunk loop: not yet completed and
all dependencies completed. -/
def readyChunk (completed : List String) (c : ChunkSpec) : Bool :=
  !(decide (c.id ∈ completed)) && c.dependencies.all (fun d => decide (d ∈ completed))

end ChunkAnalyzer

namespace BudgetTracker

/-- HANDOFF_THRESHOLD from ddd_budget_tracker.py. -/
def HANDOFF_THRESHOLD : Int := 30000

/-- should_handoff from ddd_budget_tracker.py. -/
def should_handoff (used_tokens estimated_next max_tokens : Int) : Bool :=
  let remaining := max_tokens - used_tokens
  let can_complete := decide (remaining ≥ estimated_next + HANDOFF_THRESHOLD)
  !can_complete

/-- get_budget_status from ddd_budget_tracker.py. -/
def get_budget_status (used_tokens max_tokens : Int) : String :=
  let remaining := max_tokens - used_tokens
  if remaining > 30000 then "ok"
  else if remaining ≥ 10000 then "low"
  else "critical"

/-- Severity rank of a budget status, for stating monotonicity: ok before
low before critical. -/
def statusRank (s : String) : Nat :=
  if s = "ok" then 0 else if s = "low" then 1 else 2

end BudgetTracker

/-- C7: for fixed max_tokens the budget status only moves forward through
ok → low → critical as used tokens increases (its severity rank is monotone
in used tokens), and for fixed next-chunk estimate and max, should_handoff
is monotone non-decreasing in used tokens. -/
theorem budget_monotonicity :
    ∀ (max_tokens used1 used2 estimated_next : Int), used1 ≤ used2 →
      BudgetTracker.statusRank (BudgetTracker.get_budget_status used1 max_tokens) ≤
        BudgetTracker.statusRank (BudgetTracker.get_budget_status used2 max_tokens)
      ∧ (BudgetTracker.should_handoff used1 estimated_next max_tokens = true →
          BudgetTracker.should_handoff used2 estimated_next max_tokens = true) := by
  intro m u1 u2 e h
  constructor
  · simp only [BudgetTracker.get_budget_status]
    split_ifs <;> first | decide | omega
  · simp only [BudgetTracker.should_handoff, BudgetTracker.HANDOFF_THRESHOLD,
      Bool.not_eq_true', decide_eq_false_iff_not, not_le]
    omega

/-- Witness for budget_monotonicity at the spec's concrete inputs. -/
theorem budget_monotonicity_witness :
    (50000 : Int) ≤ 180000 ∧
      (BudgetTracker.statusRank (BudgetTracker.get_budget_status 50000 200000) ≤
        BudgetTracker.statusRank (BudgetTracker.get_budget_status 180000 200000)
      ∧ (BudgetTracker.should_handoff 50000 5000 200000 = true →
          BudgetTracker.should_handoff 180000 5000 200000 = true)) :=
  ⟨by decide, budget_monotonicity 200000 50000 180000 5000 (by decide)⟩

/-- C8: registering the same session twice leaves the registry of the second
call unchanged (a no-op), and starting from a registry without that
session_id the two calls leave exactly one entry for it. -/
theorem add_transcript_record_idempotent :
    ∀ (registry : List TranscriptTracker.TranscriptRecord) (sid p1 c1 p2 c2 : String),
      TranscriptTracker.add_transcript_record
          (TranscriptTracker.add_transcript_record registry sid p1 c1) sid p2 c2 =
        TranscriptTracker.add_transcript_record registry sid p1 c1
      ∧ (registry.countP (fun t => t.session_id == sid) = 0 →
          (TranscriptTracker.add_transcript_record
              (TranscriptTracker.add_transcript_record registry sid p1 c1) sid p2 c2).countP
              (fun t => t.session_id == sid) = 1) := by
  intro registry sid p1 c1 p2 c2
  by_cases hany : registry.any (fun t => t.session_id == sid) = true
  · constructor
    · simp [TranscriptTracker.add_transcript_record, hany]
    · intro hzero
      exfalso
      rw [List.any_eq_true] at hany
      obtain ⟨t, ht, hts⟩ := hany
      have := List.countP_eq_zero.mp hzero t ht
      exact this hts
  · have hfirst : TranscriptTracker.add_transcript_record registry sid p1 c1 =
        registry ++ [⟨sid, p1, c1, false, none, 0⟩] := by
      simp only [TranscriptTracker.add_transcript_record, if_neg hany]
    have hany2 : (registry ++ [(⟨sid, p1, c1, false, none, 0⟩ :
        TranscriptTracker.TranscriptRecord)]).any (fun t => t.session_id == sid) = true := by
      simp [List.any_append]
    constructor
    · rw [hfirst]
      simp only [TranscriptTracker.add_transcript_record, if_pos hany2]
    · intro hzero
      rw [hfirst]
      simp only [TranscriptTracker.add_transcript_record, if_pos hany2]
      rw [List.countP_append, hzero]
      simp

/-- Witness for add_transcript_record_idempotent at the empty registry. -/
theorem add_transcript_record_idempotent_witness :
    (TranscriptTracker.add_transcript_record
        (TranscriptTracker.add_transcript_record [] "s1" "p1" "c1") "s1" "p2" "c2" =
      TranscriptTracker.add_transcript_record [] "s1" "p1" "c1")
    ∧ (([] : List TranscriptTracker.TranscriptRecord).countP
          (fun t => t.session_id == "s1") = 0 →
        (TranscriptTracker.add_transcript_record
            (TranscriptTracker.add_transcript_record [] "s1" "p1" "c1") "s1" "p2" "c2").countP
            (fun t => t.session_id == "s1") = 1) :=
  add_transcript_record_idempotent [] "s1" "p1" "c1" "p2" "c2"

/-- C3: the router applies its rules in order. A SubagentStop event is
skipped before the breaker is consulted, leaving the breaker's persisted
timestamps unchanged (no admission budget consumed); otherwise a denying
breaker skips with the breaker's reason; otherwise Stop queues; any other
event skips with an unknown-event reason. -/
theorem router_rule_order :
    ∀ (event_name : String) (payload : List (String × String))
      (timestamps : List ℚ) (now : ℚ),
      (event_name = "SubagentStop" →
        Router.route_hook_event event_name payload timestamps now =
          (⟨"skip", "SubagentStop events are skipped (incomplete context)"⟩, timestamps))
      ∧ (event_name ≠ "SubagentStop" →
          (CircuitBreaker.check_circuit_breaker timestamps now).1.allowed = false →
          Router.route_hook_event event_name payload timestamps now =
            (⟨"skip", "Circuit breaker active: " ++
                (CircuitBreaker.check_circuit_breaker timestamps now).1.reason⟩,
              (CircuitBreaker.check_circuit_breaker timestamps now).2))
      ∧ (event_name = "Stop" →
          (CircuitBreaker.check_circuit_breaker timestamps now).1.allowed = true →
          Router.route_hook_event event_name payload timestamps now =
            (⟨"queue", "Stop event queued for extraction"⟩,
              (CircuitBreaker.check_circuit_breaker timestamps now).2))
      ∧ (event_name ≠ "SubagentStop" → event_name ≠ "Stop" →
          (CircuitBreaker.check_circuit_breaker timestamps now).1.allowed = true →
          Router.route_hook_event event_name payload timestamps now =
            (⟨"skip", "Unknown event type: " ++ event_name⟩,
              (CircuitBreaker.check_circuit_breaker timestamps now).2)) := by
  intro event_name payload timestamps now
  refine ⟨?_, ?_, ?_, ?_⟩
  · intro h
    simp [Router.route_hook_event, h]
  · intro h1 h2
    simp [Router.route_hook_event, h1, h2]
  · intro h1 h2
    have hns : event_name ≠ "SubagentStop" := by simp [h1]
    simp [Router.route_hook_event, hns, h1, h2]
  · intro h1 h2 h3
    simp [Router.route_hook_event, h1, h2, h3]

/-- Witness for router_rule_order: a Stop event at time 0 on an empty
breaker state is queued. -/
theorem router_rule_order_witness :
    ("Stop" : String) = "Stop"
    ∧ (CircuitBreaker.check_circuit_breaker [] 0).1.allowed = true
    ∧ Router.route_hook_event "Stop" [] [] 0 =
        (⟨"queue", "Stop event queued for extraction"⟩,
          (CircuitBreaker.check_circuit_breaker [] 0).2) :=
  ⟨rfl, by decide, (router_rule_order "Stop" [] [] 0).2.2.1 rfl (by decide)⟩

/-- C5 and C4 share this fact: a non-empty list is not isEmpty. -/
theorem isEmpty_false_of_ne_nil {α : Type} {l : List α} (h : l ≠ []) :
    l.isEmpty = false := by
  cases l with
  | nil => exact absurd rfl h
  | cons a as => rfl

/-- C4: whenever the triage pass produces zero ranges (an exception or an
empty list), the two-pass extraction of a non-empty message list uses
exactly the single range [max(0, N − 50), N) with reason "fallback"; with
200 messages and a triage exception the extraction pass receives exactly
[150, 200) and the metadata records 1 range, 50 processed messages and
coverage 0.25. -/
theorem two_pass_fallback_range :
    ∀ {α : Type} (messages : List α)
      (triage : Except String (List Sampling.MessageRange)),
      (messages ≠ [] →
        ((∃ e, triage = .error e) ∨ triage = .ok []) →
        Sampling.two_pass_extraction messages triage =
          .ok ⟨[⟨max 0 ((messages.length : Int) - 50), (messages.length : Int), "fallback"⟩],
            ⟨"two_pass_intelligent", messages.length,
              (messages.length : Int) - max 0 ((messages.length : Int) - 50),
              ((((messages.length : Int) - max 0 ((messages.length : Int) - 50) : Int)) : ℚ) /
                (messages.length : ℚ),
              1⟩⟩)
      ∧ (messages.length = 200 → ∀ e,
          Sampling.two_pass_extraction messages (.error e) =
            .ok ⟨[⟨150, 200, "fallback"⟩], ⟨"two_pass_intelligent", 200, 50, 1 / 4, 1⟩⟩) := by
  intro α messages triage
  constructor
  · intro hne hzero
    have hemp := isEmpty_false_of_ne_nil hne
    have hpos : 0 < messages.length := List.length_pos.mpr hne
    have hranges : Sampling.ranges_used messages.length triage =
        [⟨max 0 ((messages.length : Int) - 50), (messages.length : Int), "fallback"⟩] := by
      rcases hzero with ⟨e, he⟩ | hok
      · simp [Sampling.ranges_used, he, Sampling.FALLBACK_COUNT]
      · simp [Sampling.ranges_used, hok, Sampling.FALLBACK_COUNT]
    simp [Sampling.two_pass_extraction, hemp, hranges, hpos]
  · intro hlen e
    have hne : messages ≠ [] := by
      intro hnil
      rw [hnil] at hlen
      simp at hlen
    have hemp := isEmpty_false_of_ne_nil hne
    simp [Sampling.two_pass_extraction, hemp, hlen, Sampling.ranges_used,
      Sampling.FALLBACK_COUNT]
    norm_num

/-- Witness for two_pass_fallback_range on a concrete 200-message list. -/
theorem two_pass_fallback_range_witness :
    (List.replicate 200 0 ≠ ([] : List Nat))
    ∧ ((List.replicate 200 (0 : Nat)).length = 200)
    ∧ Sampling.two_pass_extraction (List.replicate 200 (0 : Nat))
        (.error "timeout") =
        .ok ⟨[⟨150, 200, "fallback"⟩], ⟨"two_pass_intelligent", 200, 50, 1 / 4, 1⟩⟩ := by
  have h200 : (List.replicate 200 (0 : Nat)).length = 200 := List.length_replicate 200 0
  have hne : List.replicate 200 (0 : Nat) ≠ [] := by
    intro h
    have h0 := congrArg List.length h
    rw [h200] at h0
    exact absurd h0 (by decide)
  exact ⟨hne, h200,
    (two_pass_fallback_range (List.replicate 200 (0 : Nat)) (.error "timeout")).2
      h200 "timeout"⟩

/-- C5: for every non-empty message list, the metadata attached by the
two-pass extraction satisfies the spec's arithmetic: the fixed method
string, total = input length, processed = Σ (end − start) over the used
ranges, coverage = processed / total, and ranges_identified = number of
used ranges. -/
theorem two_pass_metadata_arithmetic :
    ∀ {α : Type} (messages : List α)
      (triage : Except String (List Sampling.MessageRange))
      (out : Sampling.TwoPassOutcome),
      messages ≠ [] →
      Sampling.two_pass_extraction messages triage = .ok out →
      out.metadata.extraction_method = "two_pass_intelligent"
      ∧ out.metadata.total_messages = messages.length
      ∧ out.metadata.processed_messages =
          (out.ranges.map (fun r => r.«end» - r.start)).sum
      ∧ out.metadata.coverage =
          (out.metadata.processed_messages : ℚ) / (messages.length : ℚ)
      ∧ out.metadata.ranges_identified = out.ranges.length := by
  intro α messages triage out hne hrun
  have hemp := isEmpty_false_of_ne_nil hne
  have hpos : 0 < messages.length := List.length_pos.mpr hne
  simp only [Sampling.two_pass_extraction, hemp, Bool.false_eq_true, if_false,
    if_pos hpos, Except.ok.injEq] at hrun
  subst hrun
  simp

/-- Witness for two_pass_metadata_arithmetic on a concrete input. -/
theorem two_pass_metadata_arithmetic_witness :
    ([0, 1] ≠ ([] : List Nat))
    ∧ Sampling.two_pass_extraction [0, 1]
        (.ok [⟨0, 2, "r"⟩]) =
        .ok ⟨[⟨0, 2, "r"⟩], ⟨"two_pass_intelligent", 2, 2, 1, 1⟩⟩
    ∧ (let out : Sampling.TwoPassOutcome :=
        ⟨[⟨0, 2, "r"⟩], ⟨"two_pass_intelligent", 2, 2, 1, 1⟩⟩
      out.metadata.extraction_method = "two_pass_intelligent"
      ∧ out.metadata.total_messages = 2
      ∧ out.metadata.processed_messages =
          (out.ranges.map (fun r => r.«end» - r.start)).sum
      ∧ out.metadata.coverage = (out.metadata.processed_messages : ℚ) / 2
      ∧ out.metadata.ranges_identified = out.ranges.length) := by
  have htp : Sampling.two_pass_extraction [0, 1] (.ok [⟨0, 2, "r"⟩]) =
      .ok ⟨[⟨0, 2, "r"⟩], ⟨"two_pass_intelligent", 2, 2, 1, 1⟩⟩ := by
    simp [Sampling.two_pass_extraction, Sampling.ranges_used]
  exact ⟨by decide, htp,
    two_pass_metadata_arithmetic [0, 1] (.ok [⟨0, 2, "r"⟩])
      ⟨[⟨0, 2, "r"⟩], ⟨"two_pass_intelligent", 2, 2, 1, 1⟩⟩ (by decide) htp⟩

/-- C10: the triage parser turns every well-formed response element (a dict
with both start and end keys) into a range — the prompt's MAX_RANGES = 5
maximum is never enforced — so a response with more than 5 well-formed
elements yields metadata with ranges_identified greater than 5 and all of
those ranges handed to the extraction pass. -/
theorem triage_ranges_unbounded :
    ∀ (items : List Sampling.TriageItem),
      (Sampling.parse_triage_ranges items).length = items.countP Sampling.wellFormedItem
      ∧ ∀ {α : Type} (messages : List α), messages ≠ [] →
          Sampling.MAX_RANGES < items.countP Sampling.wellFormedItem →
          ∃ out, Sampling.two_pass_extraction messages
              (.ok (Sampling.parse_triage_ranges items)) = .ok out
            ∧ out.ranges = Sampling.parse_triage_ranges items
            ∧ Sampling.MAX_RANGES < out.metadata.ranges_identified := by
  intro items
  have hlen : ∀ its : List Sampling.TriageItem,
      (Sampling.parse_triage_ranges its).length = its.countP Sampling.wellFormedItem := by
    intro its
    induction its with
    | nil => rfl
    | cons it rest ih =>
      cases it with
      | dict s e r =>
        cases s with
        | none => simp [Sampling.parse_triage_ranges, Sampling.wellFormedItem,
            List.countP_cons, ih]
        | some sv =>
          cases e with
          | none => simp [Sampling.parse_triage_ranges, Sampling.wellFormedItem,
              List.countP_cons, ih]
          | some ev => simp [Sampling.parse_triage_ranges, Sampling.wellFormedItem,
              List.countP_cons, ih]
      | other => simp [Sampling.parse_triage_ranges, Sampling.wellFormedItem,
          List.countP_cons, ih]
  refine ⟨hlen items, ?_⟩
  intro α messages hne hcount
  have hemp := isEmpty_false_of_ne_nil hne
  have hpos : 0 < messages.length := List.length_pos.mpr hne
  have hnonempty : (Sampling.parse_triage_ranges items).isEmpty = false := by
    apply isEmpty_false_of_ne_nil
    intro hnil
    rw [← hlen items] at hcount
    rw [hnil] at hcount
    exact absurd hcount (by simp [Sampling.MAX_RANGES])
  have hranges : Sampling.ranges_used messages.length
      (.ok (Sampling.parse_triage_ranges items)) = Sampling.parse_triage_ranges items := by
    simp [Sampling.ranges_used, hnonempty]
  have hrun : Sampling.two_pass_extraction messages
      (.ok (Sampling.parse_triage_ranges items)) =
      .ok ⟨Sampling.parse_triage_ranges items,
        ⟨"two_pass_intelligent", messages.length,
          ((Sampling.parse_triage_ranges items).map (fun r => r.«end» - r.start)).sum,
          ((((Sampling.parse_triage_ranges items).map
              (fun r => r.«end» - r.start)).sum : Int) : ℚ) / (messages.length : ℚ),
          (Sampling.parse_triage_ranges items).length⟩⟩ := by
    simp only [Sampling.two_pass_extraction, hemp, Bool.false_eq_true, if_false,
      hranges, if_pos hpos]
  refine ⟨_, hrun, rfl, ?_⟩
  show Sampling.MAX_RANGES < (Sampling.parse_triage_ranges items).length
  rw [hlen items]
  exact hcount

/-- Witness for triage_ranges_unbounded: six well-formed dicts over a
one-message list. -/
theorem triage_ranges_unbounded_witness :
    (Sampling.parse_triage_ranges
        (List.replicate 6 (Sampling.TriageItem.dict (some 0) (some 1) none))).length =
      (List.replicate 6 (Sampling.TriageItem.dict (some 0) (some 1) none)).countP
        Sampling.wellFormedItem
    ∧ ([0] ≠ ([] : List Nat))
    ∧ Sampling.MAX_RANGES <
        (List.replicate 6 (Sampling.TriageItem.dict (some 0) (some 1) none)).countP
          Sampling.wellFormedItem
    ∧ ∃ out, Sampling.two_pass_extraction [0]
          (.ok (Sampling.parse_triage_ranges
            (List.replicate 6 (Sampling.TriageItem.dict (some 0) (some 1) none)))) = .ok out
        ∧ out.ranges = Sampling.parse_triage_ranges
            (List.replicate 6 (Sampling.TriageItem.dict (some 0) (some 1) none))
        ∧ Sampling.MAX_RANGES < out.metadata.ranges_identified :=
  ⟨(triage_ranges_unbounded
      (List.replicate 6 (Sampling.TriageItem.dict (some 0) (some 1) none))).1,
    by decide, by decide,
    (triage_ranges_unbounded
      (List.replicate 6 (Sampling.TriageItem.dict (some 0) (some 1) none))).2
      [0] (by decide) (by decide)⟩

/-- C9 helper: a transcript whose lines all strip to the empty string loads
as an empty message list, whatever the JSON parser does. -/
theorem load_transcript_all_blank {α : Type} (parseLine : String → Except String α) :
    ∀ (lines : List String), (∀ l ∈ lines, pyStrip l = "") →
      Processor.load_transcript parseLine lines = .ok [] := by
  intro lines h
  induction lines with
  | nil => rfl
  | cons l rest ih =>
    have hl : pyStrip l = "" := h l (List.mem_cons_self l rest)
    have hrest : ∀ x ∈ rest, pyStrip x = "" := fun x hx => h x (List.mem_cons_of_mem l hx)
    simp [Processor.load_transcript, hl, ih hrest]

/-- C9: a transcript file that exists but contains only empty or whitespace
lines yields zero messages, and process_transcript returns success = true,
memories_extracted = 0 and the non-null error string "No messages in
transcript" — so a successful result does not imply error = none — storing
nothing and independently of the extractor (which is never invoked: the
result is the same for every extract function). -/
theorem process_transcript_empty_messages :
    ∀ {α : Type} (session_id : String) (lines : List String)
      (parseLine : String → Except String α)
      (extract : List α → Except String (List Processor.MemData)),
      (∀ l ∈ lines, pyStrip l = "") →
      Processor.process_transcript true session_id lines parseLine extract =
        .ok (⟨session_id, 0, true, some "No messages in transcript"⟩, []) := by
  intro α session_id lines parseLine extract h
  have hload := load_transcript_all_blank parseLine lines h
  simp [Processor.process_transcript, hload]

/-- Witness for process_transcript_empty_messages on a two-line whitespace
transcript. -/
theorem process_transcript_empty_messages_witness :
    (∀ l ∈ ["", "   "], pyStrip l = "")
    ∧ Processor.process_transcript true "s1" ["", "   "]
        (fun _ => (.error "bad json" : Except String Nat))
        (fun _ => .ok []) =
        .ok (⟨"s1", 0, true, some "No messages in transcript"⟩, []) :=
  ⟨by decide,
    process_transcript_empty_messages "s1" ["", "   "]
      (fun _ => (.error "bad json" : Except String Nat)) (fun _ => .ok []) (by decide)⟩

/-- C6: get_next_chunk returns the first chunk in plan order that is not
completed and whose dependencies are all completed (it equals List.find?
with that predicate), any returned chunk has all dependencies completed,
and it returns none exactly when no such chunk exists. -/
theorem get_next_chunk_spec :
    ∀ (chunks : List ChunkAnalyzer.ChunkSpec) (completed : List String),
      ChunkAnalyzer.get_next_chunk chunks completed =
          chunks.find? (ChunkAnalyzer.readyChunk completed)
      ∧ (∀ c, ChunkAnalyzer.get_next_chunk chunks completed = some c →
          c ∈ chunks ∧ c.id ∉ completed ∧ ∀ d ∈ c.dependencies, d ∈ completed)
      ∧ (ChunkAnalyzer.get_next_chunk chunks completed = none ↔
          ∀ c ∈ chunks, c.id ∈ completed ∨ ∃ d ∈ c.dependencies, d ∉ completed) := by
  intro chunks completed
  have hfind : ChunkAnalyzer.get_next_chunk chunks completed =
      chunks.find? (ChunkAnalyzer.readyChunk completed) := by
    induction chunks with
    | nil => rfl
    | cons c rest ih =>
      by_cases h1 : c.id ∈ completed
      · have hr : ChunkAnalyzer.readyChunk completed c = false := by
          simp [ChunkAnalyzer.readyChunk, h1]
        simp [ChunkAnalyzer.get_next_chunk, h1, List.find?_cons, hr, ih]
      · by_cases h2 : c.dependencies.all (fun d => decide (d ∈ completed)) = true
        · have hr : ChunkAnalyzer.readyChunk completed c = true := by
            simp only [ChunkAnalyzer.readyChunk, h2, Bool.and_true]
            simp [h1]
          simp [ChunkAnalyzer.get_next_chunk, h1, h2, List.find?_cons, hr]
        · have hr : ChunkAnalyzer.readyChunk completed c = false := by
            rw [Bool.not_eq_true] at h2
            simp [ChunkAnalyzer.readyChunk, h2]
          simp [ChunkAnalyzer.get_next_chunk, h1, h2, List.find?_cons, hr, ih]
  have hready : ∀ c, ChunkAnalyzer.readyChunk completed c = true ↔
      (c.id ∉ completed ∧ ∀ d ∈ c.dependencies, d ∈ completed) := by
    intro c
    simp [ChunkAnalyzer.readyChunk]
  refine ⟨hfind, ?_, ?_⟩
  · intro c hc
    rw [hfind] at hc
    have hmem := List.mem_of_find?_eq_some hc
    have hp := List.find?_some hc
    rw [hready c] at hp
    exact ⟨hmem, hp.1, hp.2⟩
  · rw [hfind, List.find?_eq_none]
    constructor
    · intro h c hc
      have := h c hc
      rw [Bool.not_eq_true, Bool.eq_false_iff] at this
      by_cases h1 : c.id ∈ completed
      · exact Or.inl h1
      · right
        by_contra hno
        push_neg at hno
        exact this ((hready c).mpr ⟨h1, hno⟩)
    · intro h c hc
      rcases h c hc with h1 | ⟨d, hd, hdc⟩
      · rw [Bool.not_eq_true, Bool.eq_false_iff]
        intro htrue
        exact ((hready c).mp htrue).1 h1
      · rw [Bool.not_eq_true, Bool.eq_false_iff]
        intro htrue
        exact hdc (((hready c).mp htrue).2 d hd)

/-- Witness for get_next_chunk_spec on a concrete plan: chunk 1.2 is
returned once 1.1 is completed. -/
theorem get_next_chunk_spec_witness :
    (ChunkAnalyzer.get_next_chunk
        [⟨"1.1", "a", 100, [], [], "simple"⟩, ⟨"1.2", "b", 100, ["1.1"], [], "simple"⟩]
        ["1.1"] =
      List.find? (ChunkAnalyzer.readyChunk ["1.1"])
        [⟨"1.1", "a", 100, [], [], "simple"⟩, ⟨"1.2", "b", 100, ["1.1"], [], "simple"⟩])
    ∧ (ChunkAnalyzer.get_next_chunk
        [⟨"1.1", "a", 100, [], [], "simple"⟩, ⟨"1.2", "b", 100, ["1.1"], [], "simple"⟩]
        ["1.1"] = some ⟨"1.2", "b", 100, ["1.1"], [], "simple"⟩ →
        (⟨"1.2", "b", 100, ["1.1"], [], "simple"⟩ : ChunkAnalyzer.ChunkSpec) ∈
            [(⟨"1.1", "a", 100, [], [], "simple"⟩ : ChunkAnalyzer.ChunkSpec),
              ⟨"1.2", "b", 100, ["1.1"], [], "simple"⟩]
          ∧ ("1.2" : String) ∉ (["1.1"] : List String)
          ∧ ∀ d ∈ (["1.1"] : List String), d ∈ (["1.1"] : List String)) :=
  ⟨(get_next_chunk_spec
      [⟨"1.1", "a", 100, [], [], "simple"⟩, ⟨"1.2", "b", 100, ["1.1"], [], "simple"⟩]
      ["1.1"]).1,
    (get_next_chunk_spec
      [⟨"1.1", "a", 100, [], [], "simple"⟩, ⟨"1.2", "b", 100, ["1.1"], [], "simple"⟩]
      ["1.1"]).2.1 ⟨"1.2", "b", 100, ["1.1"], [], "simple"⟩⟩

/-- pyInt agrees with the floor on nonnegative rationals. -/
theorem pyInt_of_nonneg {q : ℚ} (h : 0 ≤ q) : pyInt q = ⌊q⌋ := if_pos h

/-- Unfolding lemma for one step of cbRun. -/
theorem cbRun_cons (s : List ℚ) (t : ℚ) (ts : List ℚ) :
    CircuitBreaker.cbRun s (t :: ts) =
      (t, (CircuitBreaker.check_circuit_breaker s t).1) ::
        CircuitBreaker.cbRun (CircuitBreaker.check_circuit_breaker s t).2 ts := rfl

/-- A call is admitted when fewer than 5 persisted timestamps are recent;
the new persisted state appends the call time to the recent ones. Stated
for a state whose entries are all recent. -/
theorem cb_step_accept (s : List ℚ) (now : ℚ) (hlen : s.length < 5)
    (hrec : ∀ x ∈ s, now - x < 60) :
    CircuitBreaker.check_circuit_breaker s now =
      (⟨true, "Within frequency threshold", 0, s.length + 1⟩, s ++ [now]) := by
  have hfilter : s.filter (fun ts => decide (now - ts < CircuitBreaker.TIME_WINDOW)) = s :=
    List.filter_eq_self.mpr (fun x hx => by
      simpa [CircuitBreaker.TIME_WINDOW] using hrec x hx)
  simp [CircuitBreaker.check_circuit_breaker, hfilter, CircuitBreaker.FREQUENCY_THRESHOLD,
    Nat.not_le.mpr hlen]

/-- A call is rejected when at least 5 persisted timestamps are recent; the
persisted state is left unchanged and the wait is computed from the oldest
recent timestamp. Stated for a state whose entries are all recent. -/
theorem cb_step_reject (s : List ℚ) (now : ℚ) (hlen : 5 ≤ s.length)
    (hrec : ∀ x ∈ s, now - x < 60) :
    CircuitBreaker.check_circuit_breaker s now =
      (⟨false, "Too many hooks (" ++ toString s.length ++ " in 60s)",
        pyInt (CircuitBreaker.TIME_WINDOW - (now - CircuitBreaker.listMin s)),
        s.length⟩, s) := by
  have hfilter : s.filter (fun ts => decide (now - ts < CircuitBreaker.TIME_WINDOW)) = s :=
    List.filter_eq_self.mpr (fun x hx => by
      simpa [CircuitBreaker.TIME_WINDOW] using hrec x hx)
  simp [CircuitBreaker.check_circuit_breaker, hfilter, CircuitBreaker.FREQUENCY_THRESHOLD,
    hlen]

/-- Filtering a state to its recent entries preserves the count of entries
in a window the call time has not yet passed. -/
theorem winCount_filter_recent (a now : ℚ) (s : List ℚ) (h : now < a + 60) :
    CircuitBreaker.winCount a
        (s.filter (fun ts => decide (now - ts < CircuitBreaker.TIME_WINDOW))) =
      CircuitBreaker.winCount a s := by
  unfold CircuitBreaker.winCount
  rw [List.filter_filter]
  congr 1
  apply List.filter_congr
  intro x _
  by_cases hx : a ≤ x ∧ x < a + 60
  · have hrecx : now - x < CircuitBreaker.TIME_WINDOW := by
      have : now - x < 60 := by linarith [hx.1]
      simpa [CircuitBreaker.TIME_WINDOW] using this
    simp [hx.1, hx.2, hrecx]
  · rw [Classical.not_and_iff_or_not_not] at hx
    rcases hx with hx | hx
    · simp [hx]
    · simp [hx]

/-- Window count of a state extended by one timestamp. -/
theorem winCount_append_one (a : ℚ) (s : List ℚ) (x : ℚ) :
    CircuitBreaker.winCount a (s ++ [x]) =
      CircuitBreaker.winCount a s + (if a ≤ x ∧ x < a + 60 then 1 else 0) := by
  unfold CircuitBreaker.winCount
  rw [List.filter_append, List.length_append]
  by_cases hx : a ≤ x ∧ x < a + 60
  · simp [hx.1, hx.2]
  · rw [Classical.not_and_iff_or_not_not] at hx
    rcases hx with hx | hx
    · simp [hx]
    · simp [hx]

/-- The window count never exceeds the state's length. -/
theorem winCount_le_length (a : ℚ) (s : List ℚ) :
    CircuitBreaker.winCount a s ≤ s.length :=
  List.length_filter_le _ s

/-- No call at or after the window's end is counted as an in-window
admission. -/
theorem cbRun_accepts_none_late (a : ℚ) :
    ∀ (ts s : List ℚ), (∀ t ∈ ts, ¬t < a + 60) →
      CircuitBreaker.acceptsIn (CircuitBreaker.cbRun s ts) a = 0 := by
  intro ts
  induction ts with
  | nil => intro s _; rfl
  | cons t rest ih =>
    intro s h
    rw [cbRun_cons]
    unfold CircuitBreaker.acceptsIn
    rw [List.countP_cons]
    have ht : ¬t < a + 60 := h t (List.mem_cons_self t rest)
    have hrest := ih (CircuitBreaker.check_circuit_breaker s t).2
      (fun x hx => h x (List.mem_cons_of_mem t hx))
    unfold CircuitBreaker.acceptsIn at hrest
    simp [hrest, ht]

/-- Sliding-window invariant of the breaker: however many calls follow, the
in-window admissions are bounded by 5 minus the in-window timestamps
already persisted (truncated subtraction). -/
theorem cb_window_invariant (a : ℚ) :
    ∀ (ts : List ℚ), ts.Pairwise (· ≤ ·) → ∀ (s : List ℚ),
      CircuitBreaker.acceptsIn (CircuitBreaker.cbRun s ts) a ≤
        5 - CircuitBreaker.winCount a s := by
  intro ts
  induction ts with
  | nil => intro _ s; simp [CircuitBreaker.cbRun, CircuitBreaker.acceptsIn]
  | cons t rest ih =>
    intro hpair s
    rw [List.pairwise_cons] at hpair
    obtain ⟨hle, hpair'⟩ := hpair
    rw [cbRun_cons]
    unfold CircuitBreaker.acceptsIn
    rw [List.countP_cons]
    by_cases h5 : CircuitBreaker.FREQUENCY_THRESHOLD ≤
        (s.filter (fun ts' => decide (t - ts' < CircuitBreaker.TIME_WINDOW))).length
    · -- rejected call: state unchanged, nothing admitted
      have hstep : CircuitBreaker.check_circuit_breaker s t =
          (⟨false, "Too many hooks (" ++
              toString (s.filter (fun ts' => decide (t - ts' < CircuitBreaker.TIME_WINDOW))).length
              ++ " in 60s)",
            pyInt (CircuitBreaker.TIME_WINDOW - (t - CircuitBreaker.listMin
              (s.filter (fun ts' => decide (t - ts' < CircuitBreaker.TIME_WINDOW))))),
            (s.filter (fun ts' => decide (t - ts' < CircuitBreaker.TIME_WINDOW))).length⟩,
          s) := by
        simp only [CircuitBreaker.check_circuit_breaker, if_pos h5]
      rw [hstep]
      have := ih hpair' s
      unfold CircuitBreaker.acceptsIn at this
      simpa using this
    · -- admitted call
      have hstep : CircuitBreaker.check_circuit_breaker s t =
          (⟨true, "Within frequency threshold", 0,
            (s.filter (fun ts' => decide (t - ts' < CircuitBreaker.TIME_WINDOW))).length + 1⟩,
          s.filter (fun ts' => decide (t - ts' < CircuitBreaker.TIME_WINDOW)) ++ [t]) := by
        simp only [CircuitBreaker.check_circuit_breaker, if_neg h5]
      rw [hstep]
      dsimp only
      by_cases hwin : t < a + 60
      · have hWrec := winCount_filter_recent a t s hwin
        have hW' := winCount_append_one a
          (s.filter (fun ts' => decide (t - ts' < CircuitBreaker.TIME_WINDOW))) t
        by_cases hge : a ≤ t
        · -- admission inside the window
          have hWle : CircuitBreaker.winCount a s ≤ 4 := by
            have h1 : CircuitBreaker.winCount a s ≤
                (s.filter (fun ts' => decide (t - ts' < CircuitBreaker.TIME_WINDOW))).length := by
              rw [← hWrec]
              exact winCount_le_length a _
            have h2 : (s.filter (fun ts' =>
                decide (t - ts' < CircuitBreaker.TIME_WINDOW))).length < 5 := by
              simpa [CircuitBreaker.FREQUENCY_THRESHOLD] using Nat.lt_of_not_le h5
            omega
          have hrest := ih hpair'
            (s.filter (fun ts' => decide (t - ts' < CircuitBreaker.TIME_WINDOW)) ++ [t])
          unfold CircuitBreaker.acceptsIn at hrest
          rw [hW', hWrec, if_pos ⟨hge, hwin⟩] at hrest
          rw [if_pos (show (decide (a ≤ t) && decide (t < a + 60) &&
            (true : Bool)) = true by simp [hge, hwin])]
          omega
        · -- admission before the window opens: window count unchanged
          have hrest := ih hpair'
            (s.filter (fun ts' => decide (t - ts' < CircuitBreaker.TIME_WINDOW)) ++ [t])
          unfold CircuitBreaker.acceptsIn at hrest
          rw [hW', hWrec, if_neg (fun hc => hge hc.1)] at hrest
          rw [if_neg (show ¬(decide (a ≤ t) && decide (t < a + 60) &&
            (true : Bool)) = true by simp [hge])]
          simpa using hrest
      · -- admission after the window closed: no later call can be in-window
        have hrest := cbRun_accepts_none_late a rest
          (s.filter (fun ts' => decide (t - ts' < CircuitBreaker.TIME_WINDOW)) ++ [t])
          (fun x hx hxlt => hwin (lt_of_le_of_lt (hle x hx) hxlt))
        unfold CircuitBreaker.acceptsIn at hrest
        rw [hrest]
        simp [hwin]

/-- C2: with THRESHOLD = 5 and WINDOW = 60 s the breaker admits at most 5
calls whose times fall in any 60-second window [a, a + 60), for every
persisted start state and every nondecreasing sequence of call times; and
starting from empty persisted state, six calls within one second are
admitted as true, true, true, true, true, false, the sixth returning a
wait_seconds in (0, 60]. -/
theorem circuit_breaker_admission_bound :
    (∀ (s ts : List ℚ) (a : ℚ), ts.Pairwise (· ≤ ·) →
      CircuitBreaker.acceptsIn (CircuitBreaker.cbRun s ts) a ≤ 5)
    ∧ (∀ t1 t2 t3 t4 t5 t6 : ℚ,
        t1 ≤ t2 → t2 ≤ t3 → t3 ≤ t4 → t4 ≤ t5 → t5 ≤ t6 → t6 ≤ t1 + 1 →
        (CircuitBreaker.cbRun [] [t1, t2, t3, t4, t5, t6]).map (fun p => p.2.allowed) =
            [true, true, true, true, true, false]
        ∧ 0 < ((CircuitBreaker.cbRun [] [t1, t2, t3, t4, t5, t6]).map
              (fun p => p.2.wait_seconds)).getLastD 0
        ∧ ((CircuitBreaker.cbRun [] [t1, t2, t3, t4, t5, t6]).map
              (fun p => p.2.wait_seconds)).getLastD 0 ≤ 60) := by
  constructor
  · intro s ts a hp
    have h := cb_window_invariant a ts hp s
    omega
  · intro t1 t2 t3 t4 t5 t6 h12 h23 h34 h45 h56 hspan
    have l3 : t1 ≤ t3 := le_trans h12 h23
    have l4 : t1 ≤ t4 := le_trans l3 h34
    have l5 : t1 ≤ t5 := le_trans l4 h45
    have u2 : t2 ≤ t6 := le_trans h23 (le_trans h34 (le_trans h45 h56))
    have u3 : t3 ≤ t6 := le_trans h34 (le_trans h45 h56)
    have u4 : t4 ≤ t6 := le_trans h45 h56
    have s1 : CircuitBreaker.check_circuit_breaker [] t1 =
        (⟨true, "Within frequency threshold", 0, 1⟩, [t1]) := by
      simpa using cb_step_accept [] t1 (by simp) (by intro x hx; simp at hx)
    have s2 : CircuitBreaker.check_circuit_breaker [t1] t2 =
        (⟨true, "Within frequency threshold", 0, 2⟩, [t1, t2]) := by
      have h := cb_step_accept [t1] t2 (by simp) (by
        intro x hx
        simp at hx
        subst hx
        linarith)
      simpa using h
    have s3 : CircuitBreaker.check_circuit_breaker [t1, t2] t3 =
        (⟨true, "Within frequency threshold", 0, 3⟩, [t1, t2, t3]) := by
      have h := cb_step_accept [t1, t2] t3 (by simp) (by
        intro x hx
        simp at hx
        rcases hx with rfl | rfl <;> linarith)
      simpa using h
    have s4 : CircuitBreaker.check_circuit_breaker [t1, t2, t3] t4 =
        (⟨true, "Within frequency threshold", 0, 4⟩, [t1, t2, t3, t4]) := by
      have h := cb_step_accept [t1, t2, t3] t4 (by simp) (by
        intro x hx
        simp at hx
        rcases hx with rfl | rfl | rfl <;> linarith)
      simpa using h
    have s5 : CircuitBreaker.check_circuit_breaker [t1, t2, t3, t4] t5 =
        (⟨true, "Within frequency threshold", 0, 5⟩, [t1, t2, t3, t4, t5]) := by
      have h := cb_step_accept [t1, t2, t3, t4] t5 (by simp) (by
        intro x hx
        simp at hx
        rcases hx with rfl | rfl | rfl | rfl <;> linarith)
      simpa using h
    have hmin : CircuitBreaker.listMin [t1, t2, t3, t4, t5] = t1 := by
      simp only [CircuitBreaker.listMin, List.foldl]
      rw [min_eq_left h12, min_eq_left l3, min_eq_left l4, min_eq_left l5]
    have s6 : CircuitBreaker.check_circuit_breaker [t1, t2, t3, t4, t5] t6 =
        (⟨false, "Too many hooks (" ++ toString (5 : Nat) ++ " in 60s)",
          pyInt (60 - (t6 - t1)), 5⟩, [t1, t2, t3, t4, t5]) := by
      have h := cb_step_reject [t1, t2, t3, t4, t5] t6 (by simp) (by
        intro x hx
        simp at hx
        rcases hx with rfl | rfl | rfl | rfl | rfl <;> linarith)
      rw [hmin] at h
      simpa [CircuitBreaker.TIME_WINDOW] using h
    have hrun : CircuitBreaker.cbRun [] [t1, t2, t3, t4, t5, t6] =
        [(t1, ⟨true, "Within frequency threshold", 0, 1⟩),
          (t2, ⟨true, "Within frequency threshold", 0, 2⟩),
          (t3, ⟨true, "Within frequency threshold", 0, 3⟩),
          (t4, ⟨true, "Within frequency threshold", 0, 4⟩),
          (t5, ⟨true, "Within frequency threshold", 0, 5⟩),
          (t6, ⟨false, "Too many hooks (" ++ toString (5 : Nat) ++ " in 60s)",
            pyInt (60 - (t6 - t1)), 5⟩)] := by
      simp only [cbRun_cons, s1, s2, s3, s4, s5, s6]
      rfl
    rw [hrun]
    have hq0 : (0 : ℚ) ≤ 60 - (t6 - t1) := by linarith
    have hfl : pyInt (60 - (t6 - t1)) = ⌊(60 - (t6 - t1) : ℚ)⌋ := pyInt_of_nonneg hq0
    have h59 : (59 : ℤ) ≤ ⌊(60 - (t6 - t1) : ℚ)⌋ := by
      apply Int.le_floor.mpr
      push_cast
      linarith
    have h60 : ⌊(60 - (t6 - t1) : ℚ)⌋ ≤ 60 := by
      have hle' : (60 - (t6 - t1) : ℚ) ≤ 60 := by linarith
      have h := Int.floor_le_floor hle'
      simpa using h
    have hlast : ∀ w : ℤ, ([0, 0, 0, 0, 0, w] : List ℤ).getLastD 0 = w := fun w => rfl
    refine ⟨by simp, ?_, ?_⟩
    · simp only [List.map]
      rw [hlast, hfl]
      omega
    · simp only [List.map]
      rw [hlast, hfl]
      omega

/-- Witness for circuit_breaker_admission_bound at concrete call times
0, 0, 0, 0, 0, 1. -/
theorem circuit_breaker_admission_bound_witness :
    (List.Pairwise (· ≤ ·) [(0 : ℚ), 0, 0, 0, 0, 1]
      ∧ CircuitBreaker.acceptsIn (CircuitBreaker.cbRun [] [(0 : ℚ), 0, 0, 0, 0, 1]) 0 ≤ 5)
    ∧ ((0 : ℚ) ≤ 0 ∧ (1 : ℚ) ≤ 0 + 1
      ∧ ((CircuitBreaker.cbRun [] [(0 : ℚ), 0, 0, 0, 0, 1]).map (fun p => p.2.allowed) =
            [true, true, true, true, true, false]
        ∧ 0 < ((CircuitBreaker.cbRun [] [(0 : ℚ), 0, 0, 0, 0, 1]).map
              (fun p => p.2.wait_seconds)).getLastD 0
        ∧ ((CircuitBreaker.cbRun [] [(0 : ℚ), 0, 0, 0, 0, 1]).map
              (fun p => p.2.wait_seconds)).getLastD 0 ≤ 60)) :=
  ⟨⟨by decide, circuit_breaker_admission_bound.1 [] [0, 0, 0, 0, 0, 1] 0 (by decide)⟩,
    by decide, by norm_num,
    circuit_breaker_admission_bound.2 0 0 0 0 0 1 le_rfl le_rfl le_rfl le_rfl
      (by norm_num) (by norm_num)⟩

/-- A first-match update keyed on one value leaves lookups of a different
key unchanged, provided the update preserves the key. -/
theorem find?_update_first_ne {α : Type} (k : α → String) (f : α → α)
    (hk : ∀ x, k (f x) = k x) (s s' : String) (hss : s ≠ s') :
    ∀ l : List α,
      (update_first (fun x => k x == s) f l).find? (fun x => k x == s') =
        l.find? (fun x => k x == s') := by
  intro l
  induction l with
  | nil => rfl
  | cons x xs ih =>
    by_cases hx : (k x == s) = true
    · have hxs : k x = s := eq_of_beq hx
      have hx' : (k x == s') = false := by
        rw [hxs]
        exact beq_eq_false_iff_ne.mpr hss
      have hfx' : (k (f x) == s') = false := by
        rw [hk x]
        exact hx'
      simp [update_first, hx, List.find?_cons, hfx', hx']
    · rw [Bool.not_eq_true] at hx
      by_cases hx' : (k x == s') = true
      · simp [update_first, hx, List.find?_cons, hx']
      · rw [Bool.not_eq_true] at hx'
        simp [update_first, hx, List.find?_cons, hx', ih]

/-- Looking up the updated key after a first-match update maps the update
function over the previous lookup, provided the update preserves the key. -/
theorem find?_update_first_hit {α : Type} (k : α → String) (f : α → α)
    (hk : ∀ x, k (f x) = k x) (s : String) :
    ∀ l : List α,
      (update_first (fun x => k x == s) f l).find? (fun x => k x == s) =
        (l.find? (fun x => k x == s)).map f := by
  intro l
  induction l with
  | nil => rfl
  | cons x xs ih =>
    by_cases hx : (k x == s) = true
    · have hfx : (k (f x) == s) = true := by
        rw [hk x]
        exact hx
      simp [update_first, hx, List.find?_cons, hfx]
    · rw [Bool.not_eq_true] at hx
      simp [update_first, hx, List.find?_cons, ih]

/-- In a list whose keys are distinct, looking up a member's key finds that
member. -/
theorem find?_eq_self_of_nodup {α : Type} (k : α → String) :
    ∀ l : List α, (l.map k).Nodup → ∀ t ∈ l,
      l.find? (fun x => k x == k t) = some t := by
  intro l
  induction l with
  | nil => intro _ t ht; exact absurd ht (List.not_mem_nil t)
  | cons x xs ih =>
    intro hnd t ht
    rw [List.map_cons, List.nodup_cons] at hnd
    rcases List.mem_cons.mp ht with rfl | hmem
    · simp only [List.find?_cons, beq_self_eq_true]
    · have hne : k x ≠ k t := by
        intro heq
        exact hnd.1 (heq ▸ List.mem_map_of_mem k hmem)
      have hx : (k x == k t) = false := beq_eq_false_iff_ne.mpr hne
      simp only [List.find?_cons, hx]
      exact ih hnd.2 t hmem

/-- The registry after a worker step whose processing raised. -/
theorem worker_step_registry_error (proc : TranscriptTracker.TranscriptRecord →
      Except String Processor.ExtractionResult) (now : String)
    (st : Worker.WorkerSt) (t : TranscriptTracker.TranscriptRecord) (e : String)
    (hproc : proc t = .error e) :
    (Worker.worker_step proc now st t).registry = st.registry := by
  simp [Worker.worker_step, hproc]

/-- The registry after a worker step whose processing returned a result. -/
theorem worker_step_registry_ok (proc : TranscriptTracker.TranscriptRecord →
      Except String Processor.ExtractionResult) (now : String)
    (st : Worker.WorkerSt) (t : TranscriptTracker.TranscriptRecord)
    (r : Processor.ExtractionResult) (hproc : proc t = .ok r) :
    (Worker.worker_step proc now st t).registry =
      TranscriptTracker.mark_transcript_processed st.registry t.session_id
        r.memories_extracted now := by
  simp [Worker.worker_step, hproc]

/-- The per-transcript states after a worker step whose processing raised. -/
theorem worker_step_transcripts_error (proc : TranscriptTracker.TranscriptRecord →
      Except String Processor.ExtractionResult) (now : String)
    (st : Worker.WorkerSt) (t : TranscriptTracker.TranscriptRecord) (e : String)
    (hproc : proc t = .error e) :
    (Worker.worker_step proc now st t).transcripts =
      Worker.update_transcript_progress
        (Worker.update_transcript_progress st.transcripts t.session_id "in_progress" 0 now)
        t.session_id "failed" 0 now := by
  simp [Worker.worker_step, hproc]

/-- The per-transcript states after a worker step whose processing returned
a result. -/
theorem worker_step_transcripts_ok (proc : TranscriptTracker.TranscriptRecord →
      Except String Processor.ExtractionResult) (now : String)
    (st : Worker.WorkerSt) (t : TranscriptTracker.TranscriptRecord)
    (r : Processor.ExtractionResult) (hproc : proc t = .ok r) :
    (Worker.worker_step proc now st t).transcripts =
      Worker.update_transcript_progress
        (Worker.update_transcript_progress st.transcripts t.session_id "in_progress" 0 now)
        t.session_id "completed" r.memories_extracted now := by
  simp [Worker.worker_step, hproc]

/-- The worker loop splits over list append. -/
theorem worker_loop_append (proc : TranscriptTracker.TranscriptRecord →
      Except String Processor.ExtractionResult) (now : String) :
    ∀ (l1 l2 : List TranscriptTracker.TranscriptRecord) (st : Worker.WorkerSt),
      Worker.worker_loop proc now st (l1 ++ l2) =
        Worker.worker_loop proc now (Worker.worker_loop proc now st l1) l2 := by
  intro l1
  induction l1 with
  | nil => intro l2 st; rfl
  | cons x xs ih => intro l2 st; exact ih l2 (Worker.worker_step proc now st x)

/-- The worker loop counts one error per transcript whose processing
raised, processing every transcript in the list. -/
theorem worker_loop_errors (proc : TranscriptTracker.TranscriptRecord →
      Except String Processor.ExtractionResult) (now : String) :
    ∀ (ts : List TranscriptTracker.TranscriptRecord) (st : Worker.WorkerSt),
      (Worker.worker_loop proc now st ts).errors =
        st.errors + ts.countP (Worker.procFails proc) := by
  intro ts
  induction ts with
  | nil => intro st; simp [Worker.worker_loop]
  | cons t rest ih =>
    intro st
    rw [Worker.worker_loop, ih, List.countP_cons]
    cases hproc : proc t with
    | error e =>
      have hf : Worker.procFails proc t = true := by simp [Worker.procFails, hproc]
      simp [Worker.worker_step, hproc, hf]
      omega
    | ok r =>
      have hf : Worker.procFails proc t = false := by simp [Worker.procFails, hproc]
      simp [Worker.worker_step, hproc, hf]

/-- The worker loop counts one processed transcript per processing that
returned a result (whatever its success flag). -/
theorem worker_loop_processed (proc : TranscriptTracker.TranscriptRecord →
      Except String Processor.ExtractionResult) (now : String) :
    ∀ (ts : List TranscriptTracker.TranscriptRecord) (st : Worker.WorkerSt),
      (Worker.worker_loop proc now st ts).transcripts_processed =
        st.transcripts_processed + ts.countP (fun t => !Worker.procFails proc t) := by
  intro ts
  induction ts with
  | nil => intro st; simp [Worker.worker_loop]
  | cons t rest ih =>
    intro st
    rw [Worker.worker_loop, ih, List.countP_cons]
    cases hproc : proc t with
    | error e =>
      have hf : (!Worker.procFails proc t) = false := by simp [Worker.procFails, hproc]
      simp [Worker.worker_step, hproc, hf]
    | ok r =>
      have hf : (!Worker.procFails proc t) = true := by simp [Worker.procFails, hproc]
      simp [Worker.worker_step, hproc, hf]
      omega

/-- Marking one session id processed leaves registry lookups of another
session id unchanged. -/
theorem mark_find?_ne (registry : List TranscriptTracker.TranscriptRecord)
    (sid : String) (m : Nat) (now sid' : String) (h : sid ≠ sid') :
    (TranscriptTracker.mark_transcript_processed registry sid m now).find?
        (fun r => r.session_id == sid') =
      registry.find? (fun r => r.session_id == sid') := by
  rw [TranscriptTracker.mark_transcript_processed]
  exact find?_update_first_ne (fun x => x.session_id)
    (fun t => { t with
        processed := true
        processed_at := some now
        memories_extracted := m })
    (fun x => rfl) sid sid' h registry

/-- Looking up the marked session id after marking maps the record update
over the previous lookup. -/
theorem mark_find?_hit (registry : List TranscriptTracker.TranscriptRecord)
    (sid : String) (m : Nat) (now : String) :
    (TranscriptTracker.mark_transcript_processed registry sid m now).find?
        (fun r => r.session_id == sid) =
      (registry.find? (fun r => r.session_id == sid)).map
        (fun t => { t with
          processed := true
          processed_at := some now
          memories_extracted := m }) := by
  rw [TranscriptTracker.mark_transcript_processed]
  exact find?_update_first_hit (fun x => x.session_id)
    (fun t => { t with
        processed := true
        processed_at := some now
        memories_extracted := m })
    (fun x => rfl) sid registry

/-- Updating one transcript's progress leaves per-transcript state lookups
of another session id unchanged. -/
theorem utp_find?_ne (tstates : List Worker.TranscriptState)
    (sid status : String) (m : Nat) (now sid' : String) (h : sid ≠ sid') :
    (Worker.update_transcript_progress tstates sid status m now).find?
        (fun x => x.id == sid') =
      tstates.find? (fun x => x.id == sid') := by
  rw [Worker.update_transcript_progress]
  exact find?_update_first_ne (fun x => x.id)
    (fun t => { t with
        status := status
        memories := m
        completed_at := if status == "completed" then some now else t.completed_at })
    (fun x => rfl) sid sid' h tstates

/-- Looking up the updated session id after a progress update maps the
record update over the previous lookup. -/
theorem utp_find?_hit (tstates : List Worker.TranscriptState)
    (sid status : String) (m : Nat) (now : String) :
    (Worker.update_transcript_progress tstates sid status m now).find?
        (fun x => x.id == sid) =
      (tstates.find? (fun x => x.id == sid)).map
        (fun t => { t with
          status := status
          memories := m
          completed_at := if status == "completed" then some now else t.completed_at }) := by
  rw [Worker.update_transcript_progress]
  exact find?_update_first_hit (fun x => x.id)
    (fun t => { t with
        status := status
        memories := m
        completed_at := if status == "completed" then some now else t.completed_at })
    (fun x => rfl) sid tstates

/-- Registry lookups for a session id not among the iterated transcripts
are unchanged by the worker loop. -/
theorem worker_loop_registry_ne (proc : TranscriptTracker.TranscriptRecord →
      Except String Processor.ExtractionResult) (now sid : String) :
    ∀ (ts : List TranscriptTracker.TranscriptRecord) (st : Worker.WorkerSt),
      (∀ t ∈ ts, t.session_id ≠ sid) →
      (Worker.worker_loop proc now st ts).registry.find? (fun r => r.session_id == sid) =
        st.registry.find? (fun r => r.session_id == sid) := by
  intro ts
  induction ts with
  | nil => intro st _; rfl
  | cons t rest ih =>
    intro st h
    rw [Worker.worker_loop, ih _ (fun x hx => h x (List.mem_cons_of_mem t hx))]
    cases hproc : proc t with
    | error e => rw [worker_step_registry_error proc now st t e hproc]
    | ok r =>
      rw [worker_step_registry_ok proc now st t r hproc]
      exact mark_find?_ne st.registry t.session_id r.memories_extracted now sid
        (h t (List.mem_cons_self t rest))

/-- Per-transcript state lookups for a session id not among the iterated
transcripts are unchanged by the worker loop. -/
theorem worker_loop_transcripts_ne (proc : TranscriptTracker.TranscriptRecord →
      Except String Processor.ExtractionResult) (now sid : String) :
    ∀ (ts : List TranscriptTracker.TranscriptRecord) (st : Worker.WorkerSt),
      (∀ t ∈ ts, t.session_id ≠ sid) →
      (Worker.worker_loop proc now st ts).transcripts.find? (fun x => x.id == sid) =
        st.transcripts.find? (fun x => x.id == sid) := by
  intro ts
  induction ts with
  | nil => intro st _; rfl
  | cons t rest ih =>
    intro st h
    rw [Worker.worker_loop, ih _ (fun x hx => h x (List.mem_cons_of_mem t hx))]
    have hne := h t (List.mem_cons_self t rest)
    cases hproc : proc t with
    | error e =>
      rw [worker_step_transcripts_error proc now st t e hproc]
      rw [utp_find?_ne _ t.session_id "failed" 0 now sid hne]
      exact utp_find?_ne st.transcripts t.session_id "in_progress" 0 now sid hne
    | ok r =>
      rw [worker_step_transcripts_ok proc now st t r hproc]
      rw [utp_find?_ne _ t.session_id "completed" r.memories_extracted now sid hne]
      exact utp_find?_ne st.transcripts t.session_id "in_progress" 0 now sid hne

/-- C1 counterexample: a transcript whose processing reports an error
without raising — process_transcript returns success = false with a non-null
error, which the claim counts as a failed extraction — is treated by the
worker as a success: the run ends with the error counter still 0, the
per-transcript state completed (not failed), the overall status completed,
and the registry record marked processed = true (memories 0), so the
transcript does not remain available for a later attempt. -/
theorem worker_marks_reported_failure_processed :
    Worker.run_extraction_worker
        [⟨"s1", "p1", "t0", false, none, 0⟩]
        (fun _ => .ok ⟨"s1", 0, false, some "boom"⟩) "t1" =
      ⟨[⟨"s1", "p1", "t0", true, some "t1", 0⟩],
        some ("completed", [⟨"s1", "completed", 0, some "t1"⟩]), 1, 0, 0⟩ := by
  decide

/-- What the worker loop does to one unprocessed transcript's registry
record and per-transcript state, with unique session ids: a raised
exception leaves the registry record untouched and sets the state failed; a
returned result marks the record processed with the returned memory count
and sets the state completed. -/
theorem worker_loop_per_transcript
    (registry : List TranscriptTracker.TranscriptRecord)
    (proc : TranscriptTracker.TranscriptRecord → Except String Processor.ExtractionResult)
    (now : String)
    (hnd : (registry.map (fun r => r.session_id)).Nodup)
    (t : TranscriptTracker.TranscriptRecord)
    (ht : t ∈ TranscriptTracker.get_unprocessed_transcripts registry) :
    (∀ e, proc t = .error e →
      (Worker.worker_loop proc now
          ⟨registry, (TranscriptTracker.get_unprocessed_transcripts registry).map
            (fun x => ⟨x.session_id, "pending", 0, none⟩), 0, 0, 0⟩
          (TranscriptTracker.get_unprocessed_transcripts registry)).registry.find?
          (fun x => x.session_id == t.session_id) = some t
      ∧ (Worker.worker_loop proc now
          ⟨registry, (TranscriptTracker.get_unprocessed_transcripts registry).map
            (fun x => ⟨x.session_id, "pending", 0, none⟩), 0, 0, 0⟩
          (TranscriptTracker.get_unprocessed_transcripts registry)).transcripts.find?
          (fun x => x.id == t.session_id) = some ⟨t.session_id, "failed", 0, none⟩)
    ∧ (∀ r, proc t = .ok r →
      (Worker.worker_loop proc now
          ⟨registry, (TranscriptTracker.get_unprocessed_transcripts registry).map
            (fun x => ⟨x.session_id, "pending", 0, none⟩), 0, 0, 0⟩
          (TranscriptTracker.get_unprocessed_transcripts registry)).registry.find?
          (fun x => x.session_id == t.session_id) =
          some ⟨t.session_id, t.transcript_path, t.created_at, true, some now,
            r.memories_extracted⟩
      ∧ (Worker.worker_loop proc now
          ⟨registry, (TranscriptTracker.get_unprocessed_transcripts registry).map
            (fun x => ⟨x.session_id, "pending", 0, none⟩), 0, 0, 0⟩
          (TranscriptTracker.get_unprocessed_transcripts registry)).transcripts.find?
          (fun x => x.id == t.session_id) =
          some ⟨t.session_id, "completed", r.memories_extracted, some now⟩) := by
  obtain ⟨l1, l2, hsplit⟩ := List.append_of_mem ht
  have ht' : t ∈ registry.filter (fun x => !x.processed) := ht
  have hsub : List.Sublist (TranscriptTracker.get_unprocessed_transcripts registry) registry :=
    List.filter_sublist registry
  have hun_nodup : ((TranscriptTracker.get_unprocessed_transcripts registry).map
      (fun r => r.session_id)).Nodup :=
    List.Nodup.sublist (List.Sublist.map (fun r => r.session_id) hsub) hnd
  have hun_nodup' := hun_nodup
  rw [hsplit, List.map_append, List.map_cons] at hun_nodup'
  have hmid := List.nodup_middle.mp hun_nodup'
  have hnotin := (List.nodup_cons.mp hmid).1
  have hne1 : ∀ x ∈ l1, x.session_id ≠ t.session_id := by
    intro x hx heq
    exact hnotin (List.mem_append.mpr
      (Or.inl (heq ▸ List.mem_map_of_mem (fun r => r.session_id) hx)))
  have hne2 : ∀ x ∈ l2, x.session_id ≠ t.session_id := by
    intro x hx heq
    exact hnotin (List.mem_append.mpr
      (Or.inr (heq ▸ List.mem_map_of_mem (fun r => r.session_id) hx)))
  have hmem_reg : t ∈ registry := List.mem_of_mem_filter ht'
  have hfreg : registry.find? (fun x => x.session_id == t.session_id) = some t :=
    find?_eq_self_of_nodup (fun r => r.session_id) registry hnd t hmem_reg
  have hftst : ((TranscriptTracker.get_unprocessed_transcripts registry).map
        (fun x => (⟨x.session_id, "pending", 0, none⟩ : Worker.TranscriptState))).find?
        (fun x => x.id == t.session_id) =
      some ⟨t.session_id, "pending", 0, none⟩ := by
    have hnodup2 : (((TranscriptTracker.get_unprocessed_transcripts registry).map
        (fun x => (⟨x.session_id, "pending", 0, none⟩ : Worker.TranscriptState))).map
          (fun x => x.id)).Nodup := by
      rw [List.map_map]
      exact hun_nodup
    exact find?_eq_self_of_nodup (fun x => x.id) _ hnodup2 _
      (List.mem_map_of_mem (fun x => (⟨x.session_id, "pending", 0, none⟩ :
        Worker.TranscriptState)) ht)
  have hloop : ∀ st : Worker.WorkerSt,
      Worker.worker_loop proc now st (TranscriptTracker.get_unprocessed_transcripts registry) =
        Worker.worker_loop proc now
          (Worker.worker_step proc now (Worker.worker_loop proc now st l1) t) l2 := by
    intro st
    rw [hsplit, worker_loop_append]
    rfl
  have hreg1 : (Worker.worker_loop proc now
      ⟨registry, (TranscriptTracker.get_unprocessed_transcripts registry).map
        (fun x => ⟨x.session_id, "pending", 0, none⟩), 0, 0, 0⟩ l1).registry.find?
      (fun x => x.session_id == t.session_id) = some t := by
    rw [worker_loop_registry_ne proc now t.session_id l1 _ hne1]
    exact hfreg
  have htst1 : (Worker.worker_loop proc now
      ⟨registry, (TranscriptTracker.get_unprocessed_transcripts registry).map
        (fun x => ⟨x.session_id, "pending", 0, none⟩), 0, 0, 0⟩ l1).transcripts.find?
      (fun x => x.id == t.session_id) = some ⟨t.session_id, "pending", 0, none⟩ := by
    rw [worker_loop_transcripts_ne proc now t.session_id l1 _ hne1]
    exact hftst
  constructor
  · intro e hproc
    constructor
    · rw [hloop, worker_loop_registry_ne proc now t.session_id l2 _ hne2,
        worker_step_registry_error proc now _ t e hproc]
      exact hreg1
    · rw [hloop, worker_loop_transcripts_ne proc now t.session_id l2 _ hne2,
        worker_step_transcripts_error proc now _ t e hproc,
        utp_find?_hit, utp_find?_hit, htst1]
      rfl
  · intro r hproc
    constructor
    · rw [hloop, worker_loop_registry_ne proc now t.session_id l2 _ hne2,
        worker_step_registry_ok proc now _ t r hproc, mark_find?_hit, hreg1]
      rfl
    · rw [hloop, worker_loop_transcripts_ne proc now t.session_id l2 _ hne2,
        worker_step_transcripts_ok proc now _ t r hproc,
        utp_find?_hit, utp_find?_hit, htst1]
      rfl

/-- C1 (amended): for every transcript whose processing raises an
exception, the worker records the per-transcript state as failed,
increments the error counter, continues with the remaining transcripts
(every unprocessed transcript contributes to exactly one of the error or
processed counters), and the transcript's registry record keeps
processed = false so it remains available for a later attempt. However, any
processing call that returns a result — including one that merely reports
an error with success = false — is treated like a success: the
per-transcript state becomes completed and the registry record is marked
processed = true with the returned memory count. Stated for registries with
unique session ids. -/
theorem worker_error_handling_amended :
    ∀ (registry : List TranscriptTracker.TranscriptRecord)
      (proc : TranscriptTracker.TranscriptRecord → Except String Processor.ExtractionResult)
      (now : String),
      (registry.map (fun r => r.session_id)).Nodup →
      (Worker.run_extraction_worker registry proc now).errors =
          (TranscriptTracker.get_unprocessed_transcripts registry).countP
            (Worker.procFails proc)
      ∧ (Worker.run_extraction_worker registry proc now).transcripts_processed =
          (TranscriptTracker.get_unprocessed_transcripts registry).countP
            (fun x => !Worker.procFails proc x)
      ∧ (∀ t ∈ TranscriptTracker.get_unprocessed_transcripts registry, ∀ e,
          proc t = .error e →
          (Worker.run_extraction_worker registry proc now).registry.find?
              (fun x => x.session_id == t.session_id) = some t
          ∧ ∃ ov, (Worker.run_extraction_worker registry proc now).state = some ov
              ∧ ov.2.find? (fun x => x.id == t.session_id) =
                  some ⟨t.session_id, "failed", 0, none⟩)
      ∧ (∀ t ∈ TranscriptTracker.get_unprocessed_transcripts registry, ∀ r,
          proc t = .ok r →
          (Worker.run_extraction_worker registry proc now).registry.find?
              (fun x => x.session_id == t.session_id) =
              some ⟨t.session_id, t.transcript_path, t.created_at, true, some now,
                r.memories_extracted⟩
          ∧ ∃ ov, (Worker.run_extraction_worker registry proc now).state = some ov
              ∧ ov.2.find? (fun x => x.id == t.session_id) =
                  some ⟨t.session_id, "completed", r.memories_extracted, some now⟩) := by
  intro registry proc now hnd
  by_cases hemp : (TranscriptTracker.get_unprocessed_transcripts registry).isEmpty = true
  · have hnil : TranscriptTracker.get_unprocessed_transcripts registry = [] := by
      cases hl : TranscriptTracker.get_unprocessed_transcripts registry with
      | nil => rfl
      | cons a as =>
        rw [hl] at hemp
        exact absurd hemp (by simp)
    have hrun : Worker.run_extraction_worker registry proc now = ⟨registry, none, 0, 0, 0⟩ := by
      simp [Worker.run_extraction_worker, hemp]
    rw [hrun, hnil]
    refine ⟨by simp, by simp, ?_, ?_⟩
    · intro t ht
      exact absurd ht (List.not_mem_nil t)
    · intro t ht
      exact absurd ht (List.not_mem_nil t)
  · have hemp' : (TranscriptTracker.get_unprocessed_transcripts registry).isEmpty = false := by
      rwa [Bool.not_eq_true] at hemp
    simp only [Worker.run_extraction_worker, hemp', Bool.false_eq_true, if_false]
    refine ⟨?_, ?_, ?_, ?_⟩
    · rw [worker_loop_errors]
      simp
    · rw [worker_loop_processed]
      simp
    · intro t ht e hproc
      obtain ⟨h1, h2⟩ := (worker_loop_per_transcript registry proc now hnd t ht).1 e hproc
      exact ⟨h1, ⟨_, rfl, h2⟩⟩
    · intro t ht r hproc
      obtain ⟨h1, h2⟩ := (worker_loop_per_transcript registry proc now hnd t ht).2 r hproc
      exact ⟨h1, ⟨_, rfl, h2⟩⟩

/-- Witness for worker_error_handling_amended: one-transcript registry
whose processing raises. -/
theorem worker_error_handling_amended_witness :
    (([⟨"s1", "p1", "t0", false, none, 0⟩] :
        List TranscriptTracker.TranscriptRecord).map (fun r => r.session_id)).Nodup
    ∧ ((Worker.run_extraction_worker [⟨"s1", "p1", "t0", false, none, 0⟩]
          (fun _ => .error "exn") "t1").errors =
        (TranscriptTracker.get_unprocessed_transcripts
          [⟨"s1", "p1", "t0", false, none, 0⟩]).countP
            (Worker.procFails (fun _ => .error "exn"))
      ∧ (Worker.run_extraction_worker [⟨"s1", "p1", "t0", false, none, 0⟩]
          (fun _ => .error "exn") "t1").transcripts_processed =
          (TranscriptTracker.get_unprocessed_transcripts
            [⟨"s1", "p1", "t0", false, none, 0⟩]).countP
              (fun x => !Worker.procFails (fun _ => .error "exn") x)
      ∧ (∀ t ∈ TranscriptTracker.get_unprocessed_transcripts
            [⟨"s1", "p1", "t0", false, none, 0⟩], ∀ e,
          (fun _ => (.error "exn" : Except String Processor.ExtractionResult)) t = .error e →
          (Worker.run_extraction_worker [⟨"s1", "p1", "t0", false, none, 0⟩]
              (fun _ => .error "exn") "t1").registry.find?
              (fun x => x.session_id == t.session_id) = some t
          ∧ ∃ ov, (Worker.run_extraction_worker [⟨"s1", "p1", "t0", false, none, 0⟩]
                (fun _ => .error "exn") "t1").state = some ov
              ∧ ov.2.find? (fun x => x.id == t.session_id) =
                  some ⟨t.session_id, "failed", 0, none⟩)
      ∧ (∀ t ∈ TranscriptTracker.get_unprocessed_transcripts
            [⟨"s1", "p1", "t0", false, none, 0⟩], ∀ r,
          (fun _ => (.error "exn" : Except String Processor.ExtractionResult)) t = .ok r →
          (Worker.run_extraction_worker [⟨"s1", "p1", "t0", false, none, 0⟩]
              (fun _ => .error "exn") "t1").registry.find?
              (fun x => x.session_id == t.session_id) =
              some ⟨t.session_id, t.transcript_path, t.created_at, true, some "t1",
                r.memories_extracted⟩
          ∧ ∃ ov, (Worker.run_extraction_worker [⟨"s1", "p1", "t0", false, none, 0⟩]
                (fun _ => .error "exn") "t1").state = some ov
              ∧ ov.2.find? (fun x => x.id == t.session_id) =
                  some ⟨t.session_id, "completed", r.memories_extracted, some "t1"⟩)) :=
  ⟨by decide,
    worker_error_handling_amended [⟨"s1", "p1", "t0", false, none, 0⟩]
      (fun _ => .error "exn") "t1" (by decide)⟩

end Amplifier
